import Mathlib

/-!
Verification of the SAP enterprise-architect analysis pipeline
(`app.py`): text-to-profile extraction, dependency-graph assembly,
FMEA risk scoring and mitigation-text composition, shallowly embedded
as executable Lean definitions, with theorems settling the frozen
claims about the pipeline.

Python strings are modelled as Lean `String` (a list of unicode
characters); Python's `kw in t` substring test, `str.lower`,
`str.upper`, stable `list.sort` and the regex `\b(\d{3,6})\b` are
embedded as executable functions below.  Absent input (`None`) is
modelled as the empty string, mirroring `(text or "")`.
-/

set_option maxRecDepth 100000

namespace SapArch

/-- ASCII character-wise lowercasing, the model of Python `str.lower`
for the ASCII keyword alphabet used by the program. -/
def lowerStr (s : String) : String := String.mk (s.data.map Char.toLower)

/-- ASCII character-wise uppercasing, the model of Python `str.upper`. -/
def upperStr (s : String) : String := String.mk (s.data.map Char.toUpper)

/-- Substring containment on character lists: `substrOf n h` is true
iff `n` occurs contiguously inside `h` (Python's `n in h`). -/
def substrOf : List Char → List Char → Bool
  | n, [] => n.isEmpty
  | n, _h :: t => n.isPrefixOf (_h :: t) || substrOf n t

/-- Python's `kw in t` on strings. -/
def inStr (kw t : String) : Bool := substrOf kw.data t.data

/-- The 13-tag module keyword registry (`MODULE_KEYWORDS`). -/
def MODULE_KEYWORDS : List (String × List String) :=
  [ ("FI", ["finance", "ledger", "invoice", "tax", "closing"])
  , ("MM", ["procure", "procurement", "purchase", "supplier", "inventory"])
  , ("SD", ["sales", "order", "customer", "delivery", "billing"])
  , ("PP", ["production", "shop", "mrp", "bom", "routing"])
  , ("QM", ["quality", "inspection", "defect"])
  , ("PM", ["maintenance", "asset", "breakdown"])
  , ("EWM", ["warehouse", "wms", "picking", "putaway"])
  , ("BW/4HANA", ["analytics", "bi", "report", "kpi", "bw/4hana"])
  , ("Fiori", ["fiori", "mobile", "ui"])
  , ("IBP", ["forecast", "planning", "ibp"])
  , ("TM", ["freight", "carrier", "transport"])
  , ("MDG", ["master data", "governance", "mdg"])
  , ("S/4HANA", ["s/4hana"]) ]

/-- The 7-system external-integration registry (`EXT_SYSTEMS`). -/
def EXT_SYSTEMS : List (String × List String) :=
  [ ("Salesforce CRM", ["salesforce"])
  , ("Oracle DB (Legacy)", ["oracle"])
  , ("3PL / Logistics", ["3pl", "logistics provider"])
  , ("E-commerce", ["shopify", "magento", "e-commerce", "ecommerce"])
  , ("IoT Gateway", ["iot", "sensor", "plc"])
  , ("POS", ["pos"])
  , ("EHR", ["ehr", "hl7", "fhir"]) ]

/-- The 4-token compliance registry scanned in order. -/
def COMPLIANCE_TOKENS : List String := ["gdpr", "hipaa", "pci-dss", "iso"]

/-! ### The user-count regex `\b(\d{3,6})\b`

`re.findall(r"\b(\d{3,6})\b", t)` with `int(nums[0])` keeps only the
first, leftmost match.  The scanner below walks the text left to
right; at each position whose predecessor is not a word character it
greedily takes the maximal digit run and accepts it when its length
lies in `[3,6]` and the following character is absent or not a word
character (the regex engine's backtracking can never accept a shorter
run, because the character after a shorter run is a digit and hence a
word character). -/

/-- Python `\w` over the ASCII alphabet: letters, digits, underscore. -/
def isWordChar (c : Char) : Bool := c.isAlphanum || c == '_'

/-- Value of a digit string, the model of Python `int` on the match. -/
def digitsToNat (l : List Char) : Nat :=
  l.foldl (fun n c => 10 * n + (c.toNat - 48)) 0

/-- `\b` after a digit: end of input or a non-word character. -/
def boundaryAfter : List Char → Bool
  | [] => true
  | c :: _ => !(isWordChar c)

/-- `\b` before a digit, given the preceding character (if any). -/
def bbOf : Option Char → Bool
  | none => true
  | some p => !(isWordChar p)

/-- Left-to-right scan for the first `\b(\d{3,6})\b` match; `prev` is
the character preceding the current position. -/
def scanNum : Option Char → List Char → Option Nat
  | _, [] => none
  | prev, c :: rest =>
    if bbOf prev && c.isDigit then
      if 3 ≤ (List.takeWhile Char.isDigit (c :: rest)).length
          && (List.takeWhile Char.isDigit (c :: rest)).length ≤ 6
          && boundaryAfter
            (List.drop (List.takeWhile Char.isDigit (c :: rest)).length (c :: rest)) then
        some (digitsToNat (List.takeWhile Char.isDigit (c :: rest)))
      else scanNum (some c) rest
    else scanNum (some c) rest

/-- First `\b(\d{3,6})\b` match in the text, as a number. -/
def findFirstNum (t : List Char) : Option Nat := scanNum none t

/-! ### The extracted profile -/

/-- The structured profile returned by `extract`. -/
structure Profile where
  modules : List String
  external : List String
  hosting : String
  compliance : List String
  users : Nat
deriving DecidableEq, Repr

/-- Executable lexicographic comparison of character lists by code
point, the order Python uses to compare strings. -/
def lexLt : List Char → List Char → Bool
  | [], [] => false
  | [], _ :: _ => true
  | _ :: _, [] => false
  | a :: as, b :: bs => if a < b then true else if a = b then lexLt as bs else false

/-- Executable `x ≤ y` on strings: not `y < x`. -/
def leB (x y : String) : Bool := !(lexLt y.data x.data)

/-- Insert a string into an ascending-sorted list, keeping it sorted. -/
def insertStr (x : String) : List String → List String
  | [] => [x]
  | y :: ys => if leB x y then x :: y :: ys else y :: insertStr x ys

/-- Ascending sort of strings, the model of Python `sorted` on `str`
(lexicographic by code point). -/
def sortStrings (l : List String) : List String := l.foldr insertStr []

/-- Module tags whose keyword list hits the lowercased text, in
registry order. -/
def matchedModules (t : String) : List String :=
  MODULE_KEYWORDS.filterMap fun p =>
    if p.2.any (fun kw => inStr kw t) then some p.1 else none

/-- The sequential hosting override chain: default, then on-prem,
Azure, AWS, Hybrid checks, each overwriting on a hit. -/
def hostingOf (t : String) : String :=
  let h0 := "S/4HANA Cloud"
  let h1 := if inStr "on-prem" t || inStr "on prem" t then "On-Prem" else h0
  let h2 := if inStr "azure" t then "Azure Cloud" else h1
  let h3 := if inStr "aws" t then "AWS Cloud" else h2
  if inStr "hybrid" t then "Hybrid" else h3

/-- The profile extractor (`extract` in the source).  The Python
module set plus final `sorted(...)` is modelled by deduplicating and
sorting the collected tags. -/
def extract (text : String) : Profile :=
  let t := lowerStr text
  let matched := matchedModules t
  { modules := sortStrings
      (List.dedup
        (if matched.isEmpty then ["S/4HANA", "Fiori"]
         else matched ++ ["S/4HANA", "Fiori"]))
  , external := EXT_SYSTEMS.filterMap fun p =>
      if p.2.any (fun kw => inStr kw t) then some p.1 else none
  , hosting := hostingOf t
  , compliance := COMPLIANCE_TOKENS.filterMap fun w =>
      if inStr w t then some (upperStr w) else none
  , users := (findFirstNum t.data).getD 1000 }

/-! ### Architecture graph (`build_dot`) -/

/-- Edge list of the dependency graph, in construction order:
the fixed template edges, then module edges, then integration
edges (the edge-building loop of `build_dot`). -/
def dotEdges (a : Profile) : List (String × String) :=
  ([("Users", "Fiori"), ("Fiori", "S/4HANA"), ("S/4HANA", a.hosting)]
    ++ (a.modules.filter
        (fun m => !(m == "S/4HANA" || m == "Fiori"))).map (fun m => (m, "S/4HANA"))
    ++ a.external.map (fun e => (e, "S/4HANA")))

/-- All edge endpoints, with repetitions. -/
def endpoints (edges : List (String × String)) : List String :=
  (edges.map (fun e => [e.1, e.2])).flatten

/-- The node list of `build_dot`: the set of edge endpoints rendered
in ascending order (`sorted(nodes)` over the Python set). -/
def dotNodes (a : Profile) : List String :=
  sortStrings (List.dedup (endpoints (dotEdges a)))

/-! ### FMEA risk register (`make_fmea`) -/

/-- One row of the FMEA table; `rpn` is the derived score. -/
structure RiskRecord where
  mode : String
  effect : String
  severity : Nat
  occurrence : Nat
  detection : Nat
  rpn : Nat
  mitigations : List String
deriving DecidableEq, Repr

/-- The `add` helper of `make_fmea`: derives `rpn = sev * occ * det`. -/
def mkRisk (mode effect : String) (sev occ det : Nat)
    (acts : List String) : RiskRecord :=
  { mode := mode, effect := effect, severity := sev, occurrence := occ
  , detection := det, rpn := sev * occ * det, mitigations := acts }

/-- The six catalog entries in declaration order, parametrised by the
three occurrence-adjustment heuristics. -/
def riskItems (manyIntegrations perfHeavy cloudOrHyb : Bool) : List RiskRecord :=
  [ mkRisk "Integration failure" "Orders/shipments stuck; revenue impact"
      9 (5 + (if manyIntegrations then 1 else 0)) 5
      [ "Use standard IDoc/OData where possible"
      , "Contract SLAs with external systems"
      , "Retry & dead-letter queues; circuit breakers"
      , "Observability on interfaces (alerts, traces)" ]
  , mkRisk "Data migration error" "Inaccurate financials or inventory"
      8 4 6
      [ "Reconciliation runs & parity reports"
      , "Master-data validation rules (MDG-style)"
      , "Dry runs + cutover checklists" ]
  , mkRisk "Security breach" "PII loss / compliance fines"
      10 3 4
      [ "RBAC & SoD; MFA/SSO"
      , "Field-level encryption & masking"
      , "Centralized audit logs; log retention" ]
  , mkRisk "Performance degradation" "Slow UI and batch overruns"
      7 (4 + (if perfHeavy then 1 else 0)) 5
      [ "OData caching & CDS view tuning"
      , "Archive/cold-store aged data"
      , "Background jobs leveled; capacity tests" ]
  , mkRisk "Availability / DR gap" "Extended outage"
      9 (3 + (if cloudOrHyb then 1 else 0)) 4
      [ "Automated backups; tested restore"
      , "Cross-region replicas; failover drills"
      , "RPO/RTO in runbooks" ]
  , mkRisk "Master data quality issues" "Downstream errors across modules"
      8 5 6
      [ "Data ownership & stewardship"
      , "Duplicate prevention, validations"
      , "Golden-record governance" ] ]

/-- `len(analysis["external"]) >= 2`. -/
def many_integrations (a : Profile) : Bool := decide (2 ≤ a.external.length)

/-- `"Cloud" in hosting or hosting in ("AWS Cloud", "Azure Cloud")`. -/
def cloudFlag (a : Profile) : Bool :=
  inStr "Cloud" a.hosting || (a.hosting == "AWS Cloud" || a.hosting == "Azure Cloud")

/-- `hosting == "Hybrid"`. -/
def hybridFlag (a : Profile) : Bool := a.hosting == "Hybrid"

/-- Stable descending insertion by derived score: an earlier element
stays in front of every later element that does not strictly beat it. -/
def insertDesc (x : RiskRecord) : List RiskRecord → List RiskRecord
  | [] => [x]
  | y :: ys => if y.rpn ≤ x.rpn then x :: y :: ys else y :: insertDesc x ys

/-- Stable sort by `rpn` descending, the model of Python's stable
`items.sort(key=..., reverse=True)`. -/
def sortByRPNDesc : List RiskRecord → List RiskRecord
  | [] => []
  | x :: xs => insertDesc x (sortByRPNDesc xs)

/-- The FMEA register (`make_fmea`): the catalog under the profile's
heuristics, sorted by derived score descending. -/
def make_fmea (a : Profile) : List RiskRecord :=
  sortByRPNDesc
    (riskItems (many_integrations a) (decide (2000 < a.users))
      (cloudFlag a || hybridFlag a))

/-- Catalog declaration order of the six failure modes. -/
def MODES : List String :=
  [ "Integration failure", "Data migration error", "Security breach"
  , "Performance degradation", "Availability / DR gap"
  , "Master data quality issues" ]

/-- Index of a failure mode in catalog declaration order. -/
def modeIndex (m : String) : Nat := MODES.indexOf m

/-- Retrieve the register row for a failure mode (unique per mode). -/
def findMode (l : List RiskRecord) (m : String) : RiskRecord :=
  (l.find? (fun r => r.mode == m)).getD (mkRisk m "" 0 0 0 [])

/-! ### Mitigation narrative (`mitigation_narrative`) -/

/-- Narrative block for the integration-failure mode. -/
def intBlock : String :=
  "- **Integration failure:** Prefer *standard SAP APIs* (OData/IDoc), stabilize with message queues (retry + DLQ). Monitor flows with **open-source Prometheus/Grafana**; contract SLAs with 3rd parties."

/-- Narrative block for the data-migration mode. -/
def dmBlock : String :=
  "- **Data migration error:** Use reconciliation reports and trial cutovers; apply **data quality rules** and duplicate checks (MDG principles). Validate with **Great Expectations** (open-source)."

/-- Narrative block for the security-breach mode. -/
def sbBlock : String :=
  "- **Security breach:** Enforce **RBAC/SoD** and SSO/MFA; encrypt in transit/at rest; enable field masking; centralize audit logs; periodic access reviews."

/-- Narrative block for the availability mode. -/
def avBlock : String :=
  "- **Availability/DR:** Automate backups, test restore, configure cross-region replicas and run **failover drills**; document RPO/RTO and escalation runbooks."

/-- Narrative block for the performance mode. -/
def pfBlock : String :=
  "- **Performance:** Tune CDS views, cache OData, level background jobs; run load tests; archive historical data."

/-- Narrative block for the master-data mode. -/
def mdBlock : String :=
  "- **Master data quality:** Define data owners/stewards; validations and duplicate prevention; golden-record governance and change workflows."

/-- GDPR compliance narrative block. -/
def gdprBlock : String :=
  "- **GDPR:** Minimize PII, masking/pseudonymization, consent tracking, and retention schedules."

/-- HIPAA compliance narrative block. -/
def hipaaBlock : String :=
  "- **HIPAA:** End-to-end encryption, BAA with vendors, and strict audit logging."

/-- Fallback message of `mitigation_narrative`. -/
def fallbackMessage : String :=
  "- No high risks detected beyond standard good practices."

/-- The `if/elif` chain mapping a failure mode to its narrative block. -/
def blockFor (mode : String) : Option String :=
  if mode = "Integration failure" then some intBlock
  else if mode = "Data migration error" then some dmBlock
  else if mode = "Security breach" then some sbBlock
  else if mode = "Availability / DR gap" then some avBlock
  else if mode = "Performance degradation" then some pfBlock
  else if mode = "Master data quality issues" then some mdBlock
  else none

/-- Blocks for the top 4 rows of the (sorted) register
(`for row in fmea_items[:4]`). -/
def mitigationBullets (fmea : List RiskRecord) : List String :=
  (fmea.take 4).filterMap (fun r => blockFor r.mode)

/-- Unconditional compliance extras: GDPR block, then HIPAA block. -/
def mitigationExtras (a : Profile) : List String :=
  (if "GDPR" ∈ a.compliance then [gdprBlock] else [])
    ++ (if "HIPAA" ∈ a.compliance then [hipaaBlock] else [])

/-- Python's `"\n".join`. -/
def joinNL : List String → String
  | [] => ""
  | [s] => s
  | s :: t :: rest => s ++ "\n" ++ joinNL (t :: rest)

/-- `mitigation_narrative`: joined blocks, or the fallback when the
joined text is empty (`text or default`). -/
def mitigation_narrative (fmea : List RiskRecord) (a : Profile) : String :=
  let text := joinNL (mitigationBullets fmea ++ mitigationExtras a)
  if text = "" then fallbackMessage else text

/-! ### Declarative reading of the regex `\b(\d{3,6})\b`

`matchAt t i L` says the regex matches the slice of length `L`
starting at position `i` of `t`: 3 to 6 digits, delimited by word
boundaries on both sides. -/

/-- Whether position `i` of `t` holds a word character. -/
def wordAt (t : List Char) (i : Nat) : Bool :=
  match t[i]? with
  | none => false
  | some c => isWordChar c

/-- The regex `\b(\d{3,6})\b` matches at position `i` with length `L`. -/
def matchAt (t : List Char) (i L : Nat) : Prop :=
  3 ≤ L ∧ L ≤ 6 ∧ ((t.drop i).take L).length = L ∧
  ((t.drop i).take L).all Char.isDigit = true ∧
  (i = 0 ∨ wordAt t (i - 1) = false) ∧ wordAt t (i + L) = false

instance (t : List Char) (i L : Nat) : Decidable (matchAt t i L) := by
  unfold matchAt; infer_instance

/-- Integer value of the matched slice. -/
def numVal (t : List Char) (i L : Nat) : Nat := digitsToNat ((t.drop i).take L)

/-- Whether the enumerated hosting value is a cloud or hybrid variant
(every value except On-Prem). -/
def cloudOrHybridVariant (h : String) : Prop :=
  h = "S/4HANA Cloud" ∨ h = "Azure Cloud" ∨ h = "AWS Cloud" ∨ h = "Hybrid"

instance (h : String) : Decidable (cloudOrHybridVariant h) := by
  unfold cloudOrHybridVariant; infer_instance

/-- The end-to-end scenario input text. -/
def scenarioText : String :=
  "Implement S/4HANA finance and procurement, integrate Salesforce and 3PL, deploy on AWS, GDPR compliance, 5000 users"

/-- The profile extracted from the end-to-end scenario input. -/
def scenarioProfile : Profile := extract scenarioText

/-! ## Supporting lemmas -/

theorem lexLt_iff_lex (x : List Char) :
    ∀ y, lexLt x y = true ↔ List.Lex (· < ·) x y := by
  induction x with
  | nil =>
    intro y
    cases y with
    | nil =>
      simp only [lexLt, Bool.false_eq_true, false_iff]
      exact List.Lex.not_nil_right _ _
    | cons b bs =>
      simp only [lexLt, true_iff]
      exact List.Lex.nil
  | cons a as ih =>
    intro y
    cases y with
    | nil =>
      simp only [lexLt, Bool.false_eq_true, false_iff]
      exact List.Lex.not_nil_right _ _
    | cons b bs =>
      simp only [lexLt]
      by_cases hab : a < b
      · simp only [hab, if_true, true_iff]
        exact List.Lex.rel hab
      · by_cases heq : a = b
        · subst heq
          simp only [hab, if_false, if_pos rfl, eq_self_iff_true, if_true, ih bs]
          constructor
          · exact List.Lex.cons
          · intro h
            cases h with
            | cons h' => exact h'
            | rel h' => exact absurd h' hab
        · simp only [hab, heq, if_false, Bool.false_eq_true, false_iff]
          intro h
          cases h with
          | cons h' => exact heq rfl
          | rel h' => exact hab h'

theorem lexLt_iff_lt (a b : String) : lexLt a.data b.data = true ↔ a < b := by
  rw [lexLt_iff_lex]
  constructor
  · intro h
    exact String.lt_iff_toList_lt.mpr h
  · intro h
    exact String.lt_iff_toList_lt.mp h

theorem leB_iff (x y : String) : leB x y = true ↔ x ≤ y := by
  rw [leB, Bool.not_eq_true']
  constructor
  · intro h
    apply le_of_not_lt
    intro hyx
    rw [← lexLt_iff_lt] at hyx
    rw [hyx] at h
    cases h
  · intro h
    rw [Bool.eq_false_iff]
    intro hc
    exact absurd ((lexLt_iff_lt y x).mp hc) (not_lt.mpr h)

theorem perm_insertStr (x : String) (l : List String) : List.Perm (insertStr x l) (x :: l) := by
  induction l with
  | nil => exact List.Perm.refl _
  | cons y ys ih =>
    rw [insertStr]
    by_cases h : leB x y = true
    · rw [if_pos h]
    · rw [if_neg h]
      exact (ih.cons y).trans (List.Perm.swap x y ys)

theorem perm_sortStrings (l : List String) : List.Perm (sortStrings l) l := by
  induction l with
  | nil => exact List.Perm.refl _
  | cons x xs ih =>
    exact (perm_insertStr x (sortStrings xs)).trans (ih.cons x)

theorem sorted_le_insertStr (x : String) (l : List String)
    (h : l.Sorted (fun a b : String => a ≤ b)) :
    (insertStr x l).Sorted (fun a b : String => a ≤ b) := by
  induction l with
  | nil => simp [insertStr, List.Sorted]
  | cons y ys ih =>
    rw [insertStr]
    rcases List.pairwise_cons.mp h with ⟨hy, hys⟩
    by_cases hxy : leB x y = true
    · rw [if_pos hxy]
      refine List.pairwise_cons.mpr ⟨?_, h⟩
      intro z hz
      rcases List.mem_cons.mp hz with rfl | hz'
      · exact (leB_iff x z).mp hxy
      · exact le_trans ((leB_iff x y).mp hxy) (hy z hz')
    · rw [if_neg hxy]
      refine List.pairwise_cons.mpr ⟨?_, ih hys⟩
      intro z hz
      rcases List.mem_cons.mp ((perm_insertStr x ys).mem_iff.mp hz) with hzx | hz'
      · rw [hzx]
        exact le_of_lt (lt_of_not_le fun hle => hxy ((leB_iff x y).mpr hle))
      · exact hy z hz'

theorem sortStrings_sorted (l : List String) :
    (sortStrings l).Sorted (fun a b : String => a ≤ b) := by
  induction l with
  | nil => simp [sortStrings, List.Sorted]
  | cons x xs ih => exact sorted_le_insertStr x (sortStrings xs) ih

theorem sortStrings_mem (l : List String) (x : String) :
    x ∈ sortStrings l ↔ x ∈ l :=
  (perm_sortStrings l).mem_iff

theorem sortStrings_nodup (l : List String) (h : l.Nodup) :
    (sortStrings l).Nodup :=
  ((perm_sortStrings l).nodup_iff).mpr h

theorem sortStrings_sorted_lt (l : List String) (h : l.Nodup) :
    (sortStrings l).Sorted (fun a b : String => a < b) :=
  List.Sorted.lt_of_le (sortStrings_sorted l) (sortStrings_nodup l h)

theorem joinNL_cons_ne_empty (s : String) (l : List String)
    (hs : s.length ≠ 0) : joinNL (s :: l) ≠ "" := by
  cases l with
  | nil =>
    intro h
    apply hs
    rw [show joinNL [s] = s from rfl] at h
    rw [h]
    exact String.length_empty
  | cons t ts =>
    intro h
    apply hs
    have hlen := congrArg String.length h
    rw [show joinNL (s :: t :: ts) = s ++ "\n" ++ joinNL (t :: ts) from rfl] at hlen
    simp [String.length_append] at hlen
    omega

/-! ## Claim theorems -/

/-- C1: for every input text the extracted module list contains both
anchor tags "S/4HANA" and "Fiori"; and when no keyword of the 13-tag
registry occurs in the lowercased text, the module list holds exactly
the two anchor tags and nothing else. -/
theorem c1_anchor_tags (text : String) :
    "S/4HANA" ∈ (extract text).modules ∧ "Fiori" ∈ (extract text).modules ∧
    ((∀ p ∈ MODULE_KEYWORDS, ∀ kw ∈ p.2, inStr kw (lowerStr text) = false) →
      ∀ m, m ∈ (extract text).modules ↔ (m = "S/4HANA" ∨ m = "Fiori")) := by
  have hmod : (extract text).modules = sortStrings (List.dedup
      (if (matchedModules (lowerStr text)).isEmpty then ["S/4HANA", "Fiori"]
       else matchedModules (lowerStr text) ++ ["S/4HANA", "Fiori"])) := rfl
  refine ⟨?_, ?_, ?_⟩
  · rw [hmod, sortStrings_mem, List.mem_dedup]
    by_cases hE : (matchedModules (lowerStr text)).isEmpty <;> simp [hE]
  · rw [hmod, sortStrings_mem, List.mem_dedup]
    by_cases hE : (matchedModules (lowerStr text)).isEmpty <;> simp [hE]
  · intro h m
    have hnil : matchedModules (lowerStr text) = [] := by
      apply List.filterMap_eq_nil_iff.mpr
      intro p hp
      have hany : p.2.any (fun kw => inStr kw (lowerStr text)) = false :=
        List.any_eq_false.mpr (fun kw hkw => by simp [h p hp kw hkw])
      simp [hany]
    rw [hmod, hnil]
    simp only [List.isEmpty_nil, if_pos]
    rw [sortStrings_mem, List.mem_dedup]
    simp [or_comm]

/-- C1 witness: at the empty input both anchors are present and, since
no keyword matches, the module list is exactly the two anchors. -/
theorem c1_anchor_tags_witness :
    "S/4HANA" ∈ (extract "").modules ∧
    ("At" ∈ (extract "").modules ↔ ("At" = "S/4HANA" ∨ "At" = "Fiori")) :=
  ⟨(c1_anchor_tags "").1, (c1_anchor_tags "").2.2 (by decide) "At"⟩

/-- C2 counterexample: the input "azure aws hybrid" contains both
"azure" and "aws" yet classifies as "Hybrid", not "AWS Cloud",
refuting the claim's unconditional azure-and-aws clause. -/
theorem c2_hosting_counterexample :
    inStr "azure" (lowerStr "azure aws hybrid") = true ∧
    inStr "aws" (lowerStr "azure aws hybrid") = true ∧
    (extract "azure aws hybrid").hosting = "Hybrid" ∧
    (extract "azure aws hybrid").hosting ≠ "AWS Cloud" := by decide

/-- C2 (amended): the hosting override chain is last-match-wins: any
input with an on-prem keyword and the hybrid keyword yields "Hybrid";
any input with "azure" and "aws" but no "hybrid" yields "AWS Cloud";
any input with none of the keywords keeps the default value. -/
theorem c2_hosting_chain (text : String) :
    (((inStr "on-prem" (lowerStr text) = true ∨ inStr "on prem" (lowerStr text) = true) ∧
        inStr "hybrid" (lowerStr text) = true) →
      (extract text).hosting = "Hybrid") ∧
    ((inStr "azure" (lowerStr text) = true ∧ inStr "aws" (lowerStr text) = true ∧
        inStr "hybrid" (lowerStr text) = false) →
      (extract text).hosting = "AWS Cloud") ∧
    ((inStr "on-prem" (lowerStr text) = false ∧ inStr "on prem" (lowerStr text) = false ∧
        inStr "azure" (lowerStr text) = false ∧ inStr "aws" (lowerStr text) = false ∧
        inStr "hybrid" (lowerStr text) = false) →
      (extract text).hosting = "S/4HANA Cloud") := by
  have hh : (extract text).hosting = hostingOf (lowerStr text) := rfl
  refine ⟨fun h => ?_, fun h => ?_, fun h => ?_⟩
  · rw [hh]; unfold hostingOf; simp [h.2]
  · rw [hh]; unfold hostingOf; simp [h.1, h.2.1, h.2.2]
  · rw [hh]; unfold hostingOf; simp [h.1, h.2.1, h.2.2.1, h.2.2.2.1, h.2.2.2.2]

/-- C2 witness: concrete inputs exercising each clause of the
override chain. -/
theorem c2_hosting_chain_witness :
    (extract "on-prem and hybrid").hosting = "Hybrid" ∧
    (extract "azure then aws").hosting = "AWS Cloud" ∧
    (extract "plain").hosting = "S/4HANA Cloud" :=
  ⟨(c2_hosting_chain "on-prem and hybrid").1 (by decide),
   (c2_hosting_chain "azure then aws").2.1 (by decide),
   (c2_hosting_chain "plain").2.2 (by decide)⟩

/-- C4: the register always holds exactly 6 records, each with
derived score severity × occurrence × detection, sorted by derived
score descending with ties kept in catalog declaration order. -/
theorem c4_register_ranked (a : Profile) :
    (make_fmea a).length = 6 ∧
    (∀ r ∈ make_fmea a, r.rpn = r.severity * r.occurrence * r.detection) ∧
    (make_fmea a).Pairwise
      (fun r s => s.rpn ≤ r.rpn ∧ (r.rpn = s.rpn → modeIndex r.mode < modeIndex s.mode)) := by
  cases h1 : many_integrations a <;> cases h2 : decide (2000 < a.users) <;>
    cases h3 : cloudFlag a || hybridFlag a <;>
  · simp only [make_fmea, h1, h2, h3]
    decide

/-- C4 witness: the ranking properties hold at a concrete profile. -/
theorem c4_register_ranked_witness :
    (make_fmea (extract "")).length = 6 :=
  (c4_register_ranked (extract "")).1

/-- Occurrence and derived score of the Integration-failure row as a
function of the many-integrations heuristic. -/
theorem integration_row (a : Profile) :
    (findMode (make_fmea a) "Integration failure").occurrence
      = 5 + (if many_integrations a then 1 else 0) ∧
    (findMode (make_fmea a) "Integration failure").rpn
      = 9 * (5 + (if many_integrations a then 1 else 0)) * 5 := by
  cases h1 : many_integrations a <;> cases h2 : decide (2000 < a.users) <;>
    cases h3 : cloudFlag a || hybridFlag a <;>
  · simp only [make_fmea, h1, h2, h3]
    decide

/-- Occurrence of the Performance-degradation row as a function of
the user-count heuristic. -/
theorem performance_row (a : Profile) :
    (findMode (make_fmea a) "Performance degradation").occurrence
      = 4 + (if decide (2000 < a.users) then 1 else 0) := by
  cases h1 : many_integrations a <;> cases h2 : decide (2000 < a.users) <;>
    cases h3 : cloudFlag a || hybridFlag a <;>
  · simp only [make_fmea, h1, h2, h3]
    decide

/-- Occurrence of the Availability-gap row as a function of the
cloud-or-hybrid heuristic. -/
theorem availability_row (a : Profile) :
    (findMode (make_fmea a) "Availability / DR gap").occurrence
      = 3 + (if cloudFlag a || hybridFlag a then 1 else 0) := by
  cases h1 : many_integrations a <;> cases h2 : decide (2000 < a.users) <;>
    cases h3 : cloudFlag a || hybridFlag a <;>
  · simp only [make_fmea, h1, h2, h3]
    decide

/-- C5: each occurrence adjustment fires exactly under its stated
condition (for the availability row, over the enumerated hosting
values), and supplying at least 2 external integrations strictly
increases the Integration-failure occurrence and derived score over
the same profile with fewer than 2. -/
theorem c5_occurrence_adjustments (a : Profile)
    (henum : a.hosting = "S/4HANA Cloud" ∨ a.hosting = "On-Prem" ∨
      a.hosting = "Azure Cloud" ∨ a.hosting = "AWS Cloud" ∨ a.hosting = "Hybrid") :
    ((findMode (make_fmea a) "Integration failure").occurrence
        = if 2 ≤ a.external.length then 6 else 5) ∧
    ((findMode (make_fmea a) "Performance degradation").occurrence
        = if 2000 < a.users then 5 else 4) ∧
    ((findMode (make_fmea a) "Availability / DR gap").occurrence
        = if cloudOrHybridVariant a.hosting then 4 else 3) ∧
    (∀ ext2 : List String, 2 ≤ a.external.length → ext2.length < 2 →
      (findMode (make_fmea { a with external := ext2 }) "Integration failure").occurrence
          < (findMode (make_fmea a) "Integration failure").occurrence ∧
      (findMode (make_fmea { a with external := ext2 }) "Integration failure").rpn
          < (findMode (make_fmea a) "Integration failure").rpn) := by
  refine ⟨?_, ?_, ?_, ?_⟩
  · rw [(integration_row a).1]
    unfold many_integrations
    by_cases hm : 2 ≤ a.external.length <;> simp [hm]
  · rw [performance_row a]
    by_cases hu : 2000 < a.users <;> simp [hu]
  · rw [availability_row a]
    rcases henum with h | h | h | h | h <;>
      simp only [cloudFlag, hybridFlag, cloudOrHybridVariant, h] <;> decide
  · intro ext2 hm2 he2
    have hma : many_integrations a = true := by
      unfold many_integrations; simp [hm2]
    have hmb : many_integrations { a with external := ext2 } = false := by
      unfold many_integrations; simp; omega
    rw [(integration_row a).1, (integration_row a).2,
      (integration_row { a with external := ext2 }).1,
      (integration_row { a with external := ext2 }).2, hma, hmb]
    exact ⟨by decide, by decide⟩

/-- Concrete profile for the C5 witness: AWS-hosted, two external
systems, 5000 users. -/
def profC5 : Profile :=
  { modules := ["Fiori", "S/4HANA"], external := ["Salesforce CRM", "POS"]
  , hosting := "AWS Cloud", compliance := [], users := 5000 }

/-- C5 witness: the adjustments evaluated at a concrete profile, and
the strict drop when its externals are removed. -/
theorem c5_occurrence_adjustments_witness :
    ((findMode (make_fmea profC5) "Integration failure").occurrence
      = if 2 ≤ profC5.external.length then 6 else 5) ∧
    (findMode (make_fmea { profC5 with external := [] }) "Integration failure").rpn
      < (findMode (make_fmea profC5) "Integration failure").rpn :=
  ⟨(c5_occurrence_adjustments profC5 (by decide)).1,
   ((c5_occurrence_adjustments profC5 (by decide)).2.2.2 [] (by decide) (by decide)).2⟩

/-- C6: the GDPR and HIPAA narrative blocks are appended whenever the
corresponding tag is in the compliance list, for every risk list
whatsoever; and the narrative depends only on the first 4 records of
the risk list. -/
theorem c6_compliance_blocks (fmea : List RiskRecord) (a : Profile) :
    ("GDPR" ∈ a.compliance →
      gdprBlock ∈ mitigationBullets fmea ++ mitigationExtras a) ∧
    ("HIPAA" ∈ a.compliance →
      hipaaBlock ∈ mitigationBullets fmea ++ mitigationExtras a) ∧
    (∀ fmea2, fmea.take 4 = fmea2.take 4 →
      mitigation_narrative fmea a = mitigation_narrative fmea2 a) := by
  refine ⟨fun h => ?_, fun h => ?_, fun fmea2 hf => ?_⟩
  · exact List.mem_append_right _ (by simp [mitigationExtras, h])
  · refine List.mem_append_right _ ?_
    by_cases hg : "GDPR" ∈ a.compliance <;> simp [mitigationExtras, h, hg]
  · simp [mitigation_narrative, mitigationBullets, hf]

/-- Concrete profile for the C6 witness: both compliance tags, no
matching risk modes anywhere near the top 4 (empty risk list). -/
def profC6 : Profile :=
  { modules := [], external := [], hosting := "On-Prem"
  , compliance := ["GDPR", "HIPAA"], users := 1 }

/-- C6 witness: with an empty risk list — so neither mode is in the
top 4 — both compliance blocks still appear. -/
theorem c6_compliance_blocks_witness :
    gdprBlock ∈ mitigationBullets [] ++ mitigationExtras profC6 ∧
    hipaaBlock ∈ mitigationBullets [] ++ mitigationExtras profC6 :=
  ⟨(c6_compliance_blocks [] profC6).1 (by decide),
   (c6_compliance_blocks [] profC6).2.1 (by decide)⟩

/-- C7: the edge list starts with the three fixed template edges, the
remainder is one edge per non-anchor module followed by one edge per
external system (construction order), and the node list is the
deduplicated endpoint set in ascending order. -/
theorem c7_graph_shape (a : Profile) :
    (dotEdges a).take 3
      = [("Users", "Fiori"), ("Fiori", "S/4HANA"), ("S/4HANA", a.hosting)] ∧
    (dotEdges a).drop 3
      = (a.modules.filter
          (fun m => !(m == "S/4HANA" || m == "Fiori"))).map (fun m => (m, "S/4HANA"))
        ++ a.external.map (fun e => (e, "S/4HANA")) ∧
    (dotNodes a).Sorted (fun a b : String => a < b) ∧
    (dotNodes a).Nodup ∧
    (∀ n, n ∈ dotNodes a ↔ ∃ e ∈ dotEdges a, n = e.1 ∨ n = e.2) := by
  have hsplit : dotEdges a
      = [("Users", "Fiori"), ("Fiori", "S/4HANA"), ("S/4HANA", a.hosting)]
        ++ ((a.modules.filter
            (fun m => !(m == "S/4HANA" || m == "Fiori"))).map (fun m => (m, "S/4HANA"))
          ++ a.external.map (fun e => (e, "S/4HANA"))) := by
    rw [dotEdges, List.append_assoc]
  refine ⟨?_, ?_, ?_, ?_, ?_⟩
  · rw [hsplit]; exact List.take_left' rfl
  · rw [hsplit]; exact List.drop_left' rfl
  · exact sortStrings_sorted_lt _ (List.nodup_dedup _)
  · exact sortStrings_nodup _ (List.nodup_dedup _)
  · intro n
    rw [dotNodes, sortStrings_mem, List.mem_dedup, endpoints]
    simp only [List.mem_flatten, List.mem_map]
    constructor
    · rintro ⟨l, ⟨e, he, rfl⟩, hn⟩
      exact ⟨e, he, by simpa using hn⟩
    · rintro ⟨e, he, hn⟩
      exact ⟨[e.1, e.2], ⟨e, he, rfl⟩, by simpa using hn⟩

/-- Concrete profile for the C7 witness. -/
def profC7 : Profile :=
  { modules := ["FI", "Fiori", "S/4HANA"], external := ["POS"]
  , hosting := "Hybrid", compliance := [], users := 1000 }

/-- C7 witness: the template edges and node ordering at a concrete
profile. -/
theorem c7_graph_shape_witness :
    (dotEdges profC7).take 3
      = [("Users", "Fiori"), ("Fiori", "S/4HANA"), ("S/4HANA", profC7.hosting)] ∧
    (dotNodes profC7).Sorted (fun a b : String => a < b) :=
  ⟨(c7_graph_shape profC7).1, (c7_graph_shape profC7).2.2.1⟩

/-- C8: the end-to-end scenario input yields the expected modules,
external systems, hosting, compliance and user count; its
Integration-failure row carries the occurrence boost, and the
narrative block list includes the Integration-failure and GDPR
blocks. -/
theorem c8_scenario :
    ("FI" ∈ scenarioProfile.modules ∧ "MM" ∈ scenarioProfile.modules ∧
      "S/4HANA" ∈ scenarioProfile.modules ∧ "Fiori" ∈ scenarioProfile.modules) ∧
    ("Salesforce CRM" ∈ scenarioProfile.external ∧
      "3PL / Logistics" ∈ scenarioProfile.external) ∧
    scenarioProfile.hosting = "AWS Cloud" ∧
    scenarioProfile.compliance = ["GDPR"] ∧
    scenarioProfile.users = 5000 ∧
    (findMode (make_fmea scenarioProfile) "Integration failure").occurrence = 6 ∧
    intBlock ∈ mitigationBullets (make_fmea scenarioProfile) ∧
    gdprBlock ∈ mitigationExtras scenarioProfile := by decide

/-- The narrative of any profile's register is the joined block text
and that text is never empty: the top-4 rows always contribute at
least one mapped block. -/
theorem narrative_nonempty (a : Profile) :
    joinNL (mitigationBullets (make_fmea a) ++ mitigationExtras a) ≠ "" ∧
    mitigation_narrative (make_fmea a) a
      = joinNL (mitigationBullets (make_fmea a) ++ mitigationExtras a) := by
  have hb1 : mitigationBullets (make_fmea a) ≠ [] := by
    cases h1 : many_integrations a <;> cases h2 : decide (2000 < a.users) <;>
      cases h3 : cloudFlag a || hybridFlag a <;>
    · simp only [make_fmea, h1, h2, h3]
      decide
  have hb2 : ∀ s ∈ mitigationBullets (make_fmea a), s.length ≠ 0 := by
    cases h1 : many_integrations a <;> cases h2 : decide (2000 < a.users) <;>
      cases h3 : cloudFlag a || hybridFlag a <;>
    · simp only [make_fmea, h1, h2, h3]
      decide
  obtain ⟨s, l, hsl⟩ := List.exists_cons_of_ne_nil hb1
  have hne : joinNL (mitigationBullets (make_fmea a) ++ mitigationExtras a) ≠ "" := by
    rw [hsl, List.cons_append]
    exact joinNL_cons_ne_empty s (l ++ mitigationExtras a)
      (hb2 s (by rw [hsl]; exact List.mem_cons_self s l))
  refine ⟨hne, ?_⟩
  show (if joinNL (mitigationBullets (make_fmea a) ++ mitigationExtras a) = ""
      then fallbackMessage
      else joinNL (mitigationBullets (make_fmea a) ++ mitigationExtras a)) = _
  rw [if_neg hne]

/-- C9: for every profile the extractor can produce, the mitigation
narrative is the joined block text — the fallback branch is not taken
— and the narrative is non-empty. -/
theorem c9_fallback_unreachable (text : String) :
    mitigation_narrative (make_fmea (extract text)) (extract text)
      = joinNL (mitigationBullets (make_fmea (extract text))
          ++ mitigationExtras (extract text)) ∧
    mitigation_narrative (make_fmea (extract text)) (extract text) ≠ "" := by
  have h := narrative_nonempty (extract text)
  exact ⟨h.2, by rw [h.2]; exact h.1⟩

/-- C9 witness: non-empty narrative at the empty input. -/
theorem c9_fallback_unreachable_witness :
    mitigation_narrative (make_fmea (extract "")) (extract "") ≠ "" :=
  (c9_fallback_unreachable "").2

/-- C10: for every input text the extracted module list is
duplicate-free and sorted in ascending lexicographic order. -/
theorem c10_modules_sorted (text : String) :
    (extract text).modules.Nodup ∧
    (extract text).modules.Sorted (fun a b : String => a < b) := by
  have hmod : (extract text).modules = sortStrings (List.dedup
      (if (matchedModules (lowerStr text)).isEmpty then ["S/4HANA", "Fiori"]
       else matchedModules (lowerStr text) ++ ["S/4HANA", "Fiori"])) := rfl
  rw [hmod]
  exact ⟨sortStrings_nodup _ (List.nodup_dedup _),
    sortStrings_sorted_lt _ (List.nodup_dedup _)⟩

/-- C10 witness: the guarantee at a concrete input. -/
theorem c10_modules_sorted_witness :
    (extract scenarioText).modules.Nodup :=
  (c10_modules_sorted scenarioText).1

/-! ## Correctness of the regex scanner against `matchAt` -/

theorem getElem?_of_drop {α : Type} (l : List α) (n m : Nat) :
    (l.drop n)[m]? = l[n + m]? := by
  induction l generalizing n with
  | nil => simp
  | cons a l ih =>
    cases n with
    | zero => simp
    | succ k =>
      rw [List.drop_succ_cons]
      rw [ih k]
      simp [Nat.succ_add]

theorem take_of_takeWhile {α : Type} (p : α → Bool) (l : List α) :
    l.take (l.takeWhile p).length = l.takeWhile p := by
  induction l with
  | nil => rfl
  | cons a l ih =>
    by_cases h : p a
    · rw [List.takeWhile_cons_of_pos h]
      simp [List.take_succ_cons, ih]
    · rw [List.takeWhile_cons_of_neg h]
      rfl

theorem all_takeWhile {α : Type} (p : α → Bool) (l : List α) :
    (l.takeWhile p).all p = true := by
  induction l with
  | nil => rfl
  | cons a l ih =>
    by_cases h : p a
    · rw [List.takeWhile_cons_of_pos h]
      simp [h, ih]
    · rw [List.takeWhile_cons_of_neg h]
      rfl

theorem le_takeWhileLen_of_take_all {α : Type} (p : α → Bool) (l : List α) (L : Nat)
    (hlen : (l.take L).length = L) (hall : (l.take L).all p = true) :
    L ≤ (l.takeWhile p).length := by
  induction l generalizing L with
  | nil => simp at hlen; omega
  | cons a l ih =>
    cases L with
    | zero => exact Nat.zero_le _
    | succ K =>
      rw [List.take_succ_cons] at hlen hall
      simp only [List.all_cons, Bool.and_eq_true] at hall
      rw [List.takeWhile_cons_of_pos hall.1]
      have := ih K (by simpa using hlen) hall.2
      simpa using this

theorem getElem?_takeWhileLt {α : Type} (p : α → Bool) (l : List α) (k : Nat)
    (hk : k < (l.takeWhile p).length) : ∃ c, l[k]? = some c ∧ p c = true := by
  induction l generalizing k with
  | nil => simp at hk
  | cons a l ih =>
    by_cases h : p a
    · rw [List.takeWhile_cons_of_pos h] at hk
      cases k with
      | zero => exact ⟨a, by simp, h⟩
      | succ j =>
        obtain ⟨c, hc, hpc⟩ := ih j (by simpa using hk)
        exact ⟨c, by simpa using hc, hpc⟩
    · rw [List.takeWhile_cons_of_neg h] at hk
      simp at hk

theorem wordAt_eq_of_getElem (t : List Char) (j : Nat) (c : Char)
    (h : t[j]? = some c) : wordAt t j = isWordChar c := by
  unfold wordAt
  rw [h]

theorem wordAt_eq_false_of_none (t : List Char) (j : Nat)
    (h : t[j]? = none) : wordAt t j = false := by
  unfold wordAt
  rw [h]

theorem isWordChar_of_isDigit (c : Char) (h : c.isDigit = true) :
    isWordChar c = true := by
  simp [isWordChar, Char.isAlphanum, h]

theorem matchAt_bounds (t : List Char) (i L : Nat) (h : matchAt t i L) :
    i + L ≤ t.length ∧ 3 ≤ L ∧ L ≤ 6 := by
  obtain ⟨h3, h6, hlen, -, -, -⟩ := h
  rw [List.length_take, List.length_drop] at hlen
  omega

theorem matchAt_digit_inside (t : List Char) (i L k : Nat)
    (h : matchAt t i L) (hk : k < L) : wordAt t (i + k) = true := by
  obtain ⟨h3, h6, hlen, hall, -, -⟩ := h
  have hk' : k < ((t.drop i).take L).length := by omega
  obtain ⟨d, hd⟩ : ∃ d, ((t.drop i).take L)[k]? = some d := by
    rw [List.getElem?_eq_getElem hk']
    exact ⟨_, rfl⟩
  have htk : t[i + k]? = some d := by
    rw [← getElem?_of_drop, ← List.getElem?_take_of_lt hk]
    exact hd
  have hdig := List.all_eq_true.mp hall d (List.getElem?_mem hd)
  rw [wordAt_eq_of_getElem t (i + k) d htk]
  exact isWordChar_of_isDigit d hdig

theorem matchAt_len_unique (t : List Char) (i L L' : Nat)
    (h : matchAt t i L) (h' : matchAt t i L') : L = L' := by
  have key : ∀ M M', matchAt t i M → matchAt t i M' → M < M' → False := by
    intro M M' hM hM' hMM
    have hw := matchAt_digit_inside t i M' M hM' hMM
    have hb := hM.2.2.2.2.2
    rw [hw] at hb
    cases hb
  rcases Nat.lt_trichotomy L L' with hlt | heq | hgt
  · exact (key L L' h h' hlt).elim
  · exact heq
  · exact (key L' L h' h hgt).elim

theorem wordAt_boundary (t : List Char) (i : Nat) (c : Char) (rest : List Char)
    (m : Nat) (hdrop : t.drop i = c :: rest) :
    boundaryAfter (List.drop m (c :: rest)) = !(wordAt t (i + m)) := by
  have hgm : t[i + m]? = (c :: rest)[m]? := by
    rw [← hdrop, getElem?_of_drop]
  cases hdd : List.drop m (c :: rest) with
  | nil =>
    have hnone : (c :: rest)[m]? = none := by
      apply List.getElem?_eq_none
      rw [← List.drop_eq_nil_iff, hdd]
    rw [boundaryAfter, wordAt_eq_false_of_none t (i + m) (by rw [hgm]; exact hnone)]
    rfl
  | cons d ds =>
    have hsome : (c :: rest)[m]? = some d := by
      have h0 := getElem?_of_drop (c :: rest) m 0
      rw [hdd] at h0
      simpa using h0.symm
    rw [boundaryAfter, wordAt_eq_of_getElem t (i + m) d (by rw [hgm]; exact hsome)]

theorem local_match_of_cond (t : List Char) (i : Nat) (c : Char) (rest : List Char)
    (hdrop : t.drop i = c :: rest)
    (hbefore : i = 0 ∨ wordAt t (i - 1) = false)
    (hcond : (3 ≤ (List.takeWhile Char.isDigit (c :: rest)).length
        && (List.takeWhile Char.isDigit (c :: rest)).length ≤ 6
        && boundaryAfter
          (List.drop (List.takeWhile Char.isDigit (c :: rest)).length (c :: rest))) = true) :
    matchAt t i (List.takeWhile Char.isDigit (c :: rest)).length ∧
    digitsToNat (List.takeWhile Char.isDigit (c :: rest))
      = numVal t i (List.takeWhile Char.isDigit (c :: rest)).length := by
  simp only [Bool.and_eq_true, decide_eq_true_eq] at hcond
  obtain ⟨⟨h3, h6⟩, hba⟩ := hcond
  have hseg : (t.drop i).take (List.takeWhile Char.isDigit (c :: rest)).length
      = List.takeWhile Char.isDigit (c :: rest) := by
    rw [hdrop]
    exact take_of_takeWhile _ _
  have hafter : wordAt t (i + (List.takeWhile Char.isDigit (c :: rest)).length) = false := by
    have := wordAt_boundary t i c rest (List.takeWhile Char.isDigit (c :: rest)).length hdrop
    rw [this] at hba
    simpa using hba
  refine ⟨⟨h3, h6, by rw [hseg], by rw [hseg]; exact all_takeWhile _ _, hbefore, hafter⟩, ?_⟩
  rw [numVal, hseg]

theorem local_match_inv (t : List Char) (i : Nat) (c : Char) (rest : List Char)
    (L : Nat) (hdrop : t.drop i = c :: rest) (hm : matchAt t i L) :
    c.isDigit = true ∧ L = (List.takeWhile Char.isDigit (c :: rest)).length ∧
    (3 ≤ (List.takeWhile Char.isDigit (c :: rest)).length
        && (List.takeWhile Char.isDigit (c :: rest)).length ≤ 6
        && boundaryAfter
          (List.drop (List.takeWhile Char.isDigit (c :: rest)).length (c :: rest))) = true := by
  obtain ⟨h3, h6, hlen, hall, hbefore, hafter⟩ := hm
  rw [hdrop] at hlen hall
  have hcdig : c.isDigit = true := by
    cases L with
    | zero => omega
    | succ K =>
      rw [List.take_succ_cons] at hall
      simp only [List.all_cons, Bool.and_eq_true] at hall
      exact hall.1
  have hLle : L ≤ (List.takeWhile Char.isDigit (c :: rest)).length :=
    le_takeWhileLen_of_take_all Char.isDigit (c :: rest) L hlen hall
  have hLeq : L = (List.takeWhile Char.isDigit (c :: rest)).length := by
    rcases Nat.eq_or_lt_of_le hLle with h | hlt
    · exact h
    · exfalso
      obtain ⟨d, hd, hdig⟩ := getElem?_takeWhileLt Char.isDigit (c :: rest) L hlt
      have htL : t[i + L]? = some d := by
        rw [← hdrop] at hd
        rw [← getElem?_of_drop t i L]
        exact hd
      have := wordAt_eq_of_getElem t (i + L) d htL
      rw [hafter] at this
      rw [isWordChar_of_isDigit d hdig] at this
      cases this
  refine ⟨hcdig, hLeq, ?_⟩
  have hba : boundaryAfter
      (List.drop (List.takeWhile Char.isDigit (c :: rest)).length (c :: rest)) = true := by
    rw [wordAt_boundary t i c rest _ hdrop, ← hLeq, hafter]
    rfl
  simp only [Bool.and_eq_true, decide_eq_true_eq]
  exact ⟨⟨by omega, by omega⟩, hba⟩

theorem scan_correct (s : List Char) : ∀ (t : List Char) (i : Nat) (prev : Option Char),
    i ≤ t.length → t.drop i = s →
    (bbOf prev = true ↔ (i = 0 ∨ wordAt t (i - 1) = false)) →
    ((scanNum prev s = none → ∀ j L, i ≤ j → ¬ matchAt t j L) ∧
     (∀ n, scanNum prev s = some n →
       ∃ j L, i ≤ j ∧ matchAt t j L ∧ n = numVal t j L ∧
         ∀ j' L', i ≤ j' → matchAt t j' L' → j ≤ j')) := by
  induction s with
  | nil =>
    intro t i prev hi hdrop hbb
    constructor
    · intro _ j L hj hm
      have hbnd := matchAt_bounds t j L hm
      have hlen : t.length ≤ i := List.drop_eq_nil_iff.mp hdrop
      omega
    · intro n hn
      rw [show scanNum prev [] = none from rfl] at hn
      cases hn
  | cons c rest ih =>
    intro t i prev hi hdrop hbb
    have hilt : i < t.length := by
      by_contra hcon
      rw [List.drop_eq_nil_of_le (by omega)] at hdrop
      cases hdrop
    have hgi : t[i]? = some c := by
      have h0 := getElem?_of_drop t i 0
      rw [hdrop] at h0
      simpa using h0.symm
    have hdrop1 : t.drop (i + 1) = rest := by
      have h1 := List.drop_drop 1 i t
      rw [hdrop] at h1
      simpa using h1.symm
    have hbbnext : bbOf (some c) = true ↔ (i + 1 = 0 ∨ wordAt t (i + 1 - 1) = false) := by
      simp [bbOf, wordAt_eq_of_getElem t i c hgi]
    by_cases htest : (bbOf prev && c.isDigit) = true
    · by_cases hcond : (3 ≤ (List.takeWhile Char.isDigit (c :: rest)).length
          && (List.takeWhile Char.isDigit (c :: rest)).length ≤ 6
          && boundaryAfter
            (List.drop (List.takeWhile Char.isDigit (c :: rest)).length (c :: rest))) = true
      · have heval : scanNum prev (c :: rest)
            = some (digitsToNat (List.takeWhile Char.isDigit (c :: rest))) := by
          rw [scanNum, if_pos htest, if_pos hcond]
        have hbefore : i = 0 ∨ wordAt t (i - 1) = false :=
          hbb.mp (Bool.and_eq_true_iff.mp htest).1
        obtain ⟨hmatch, hvalue⟩ := local_match_of_cond t i c rest hdrop hbefore hcond
        constructor
        · intro hnone
          rw [heval] at hnone
          cases hnone
        · intro n hn
          rw [heval] at hn
          injection hn with hn
          exact ⟨i, (List.takeWhile Char.isDigit (c :: rest)).length, le_refl i,
            hmatch, by rw [← hn, hvalue], fun j' L' hj' _ => hj'⟩
      · have heval : scanNum prev (c :: rest) = scanNum (some c) rest := by
          rw [scanNum, if_pos htest, if_neg hcond]
        have hstep : ∀ L, ¬ matchAt t i L := by
          intro L hm
          exact hcond (local_match_inv t i c rest L hdrop hm).2.2
        have IH := ih t (i + 1) (some c) (by omega) hdrop1 hbbnext
        constructor
        · intro hnone j L hj hm
          rcases Nat.eq_or_lt_of_le hj with rfl | hlt
          · exact hstep L hm
          · exact IH.1 (by rw [← heval]; exact hnone) j L (by omega) hm
        · intro n hn
          rw [heval] at hn
          obtain ⟨j, L, hij, hm, hval, hmin⟩ := IH.2 n hn
          refine ⟨j, L, by omega, hm, hval, ?_⟩
          intro j' L' hj' hm'
          rcases Nat.eq_or_lt_of_le hj' with rfl | hlt
          · exact absurd hm' (hstep L')
          · exact hmin j' L' (by omega) hm'
    · have heval : scanNum prev (c :: rest) = scanNum (some c) rest := by
        rw [scanNum, if_neg htest]
      have hstep : ∀ L, ¬ matchAt t i L := by
        intro L hm
        apply htest
        have hinv := local_match_inv t i c rest L hdrop hm
        have hbbtrue : bbOf prev = true := hbb.mpr hm.2.2.2.2.1
        rw [hbbtrue, hinv.1]
        rfl
      have IH := ih t (i + 1) (some c) (by omega) hdrop1 hbbnext
      constructor
      · intro hnone j L hj hm
        rcases Nat.eq_or_lt_of_le hj with rfl | hlt
        · exact hstep L hm
        · exact IH.1 (by rw [← heval]; exact hnone) j L (by omega) hm
      · intro n hn
        rw [heval] at hn
        obtain ⟨j, L, hij, hm, hval, hmin⟩ := IH.2 n hn
        refine ⟨j, L, by omega, hm, hval, ?_⟩
        intro j' L' hj' hm'
        rcases Nat.eq_or_lt_of_le hj' with rfl | hlt
        · exact absurd hm' (hstep L')
        · exact hmin j' L' (by omega) hm'

/-- C3 counterexample: on "000 staff and 2500 employees" the first
`\b(\d{3,6})\b` match is "000", so `users` is 0 — not positive — even
though the text contains "2500 employees"; and `users ≠ 2500`. -/
theorem c3_users_counterexample :
    (extract "000 staff and 2500 employees").users = 0 ∧
    ¬ 0 < (extract "000 staff and 2500 employees").users ∧
    inStr "2500 employees" (lowerStr "000 staff and 2500 employees") = true ∧
    (extract "000 staff and 2500 employees").users ≠ 2500 := by decide

/-- C3 (amended): `users` is the (non-negative, possibly zero)
integer value of the first word-boundary-delimited 3–6 digit
substring of the lowercased text, and 1000 when no such substring
exists. -/
theorem c3_users_first_match (text : String) :
    ((∀ i, i ≤ (lowerStr text).data.length → ∀ L, L ≤ 6 →
        ¬ matchAt (lowerStr text).data i L) →
      (extract text).users = 1000) ∧
    (∀ i L, matchAt (lowerStr text).data i L →
      (∀ j, j ≤ (lowerStr text).data.length → ∀ L', L' ≤ 6 →
        matchAt (lowerStr text).data j L' → i ≤ j) →
      (extract text).users = numVal (lowerStr text).data i L) := by
  have husers : (extract text).users
      = (scanNum none (lowerStr text).data).getD 1000 := rfl
  have hbase := scan_correct (lowerStr text).data (lowerStr text).data 0 none
    (Nat.zero_le _) rfl (by simp [bbOf])
  constructor
  · intro hno
    cases hscan : scanNum none (lowerStr text).data with
    | none => rw [husers, hscan]; rfl
    | some n =>
      obtain ⟨j, L, hij, hm, hval, hmin⟩ := hbase.2 n hscan
      have hbnd := matchAt_bounds _ j L hm
      exact absurd hm (hno j (by omega) L (by omega))
  · intro i L hm hmin
    cases hscan : scanNum none (lowerStr text).data with
    | none => exact absurd hm (hbase.1 hscan i L (Nat.zero_le _))
    | some n =>
      obtain ⟨j, L0, hj0, hm0, hval0, hmin0⟩ := hbase.2 n hscan
      have hbnd := matchAt_bounds _ i L hm
      have hbnd0 := matchAt_bounds _ j L0 hm0
      have h1 : i ≤ j := hmin j (by omega) L0 (by omega) hm0
      have h2 : j ≤ i := hmin0 i L (Nat.zero_le _) hm
      have hji : j = i := by omega
      subst hji
      have hLL : L = L0 := matchAt_len_unique _ j L L0 hm hm0
      rw [husers, hscan]
      show n = numVal (lowerStr text).data j L
      rw [hval0, hLL]

/-- C3 witness: on "2500 employees" the first match starts at 0 with
length 4 and `users` evaluates to 2500. -/
theorem c3_users_first_match_witness :
    (extract "2500 employees").users = numVal (lowerStr "2500 employees").data 0 4 ∧
    numVal (lowerStr "2500 employees").data 0 4 = 2500 :=
  ⟨(c3_users_first_match "2500 employees").2 0 4 (by decide) (by decide), by decide⟩

end SapArch
